import Mathlib

/-!
Verification development for the agora-analyst pipeline
(`analysis/kritis_analyzer_v50.py`).

The development shallowly embeds the two components under study:

* the structured-extraction client `_analyze_content_v50` (backend call,
  code-fence stripping, JSON parsing, structure validation/normalisation,
  fallback on any failure), and
* the knowledge-graph linker (`_find_target_law_v50`,
  `_find_target_article_v50`, `_update_target_article_status_v50`,
  `_process_and_link_references`, `_process_preamble_references`).

Machine strings are Lean `String`s, the store is explicit state
(lists of rows per table), fallible Python code is `Option`-valued, and
Python exceptions caught by `try/except` blocks are modelled by the
corresponding `Option`/branch structure of the definitions.
-/

/-! ## Basic string helpers (Python semantics) -/

/-- Python truthiness of an optional string: `None` and `""` are falsy. -/
def truthy : Option String → Bool
  | none => false
  | some s => !(s == "")

/-- Does `pat` occur at the head of `hay`? -/
def leadMatch : List Char → List Char → Bool
  | [], _ => true
  | _ :: _, [] => false
  | p :: ps, h :: hs => p == h && leadMatch ps hs

/-- Does `pat` occur as a contiguous run anywhere in `hay`?
    (Model of Python `pat in hay` / SQL `LIKE wildcard-pat-wildcard`.) -/
def subMatch (pat : List Char) : List Char → Bool
  | [] => leadMatch pat []
  | h :: hs => leadMatch pat (h :: hs) || subMatch pat hs

/-- Lexicographic order on char lists, the order Python uses on `str`. -/
def charsLt : List Char → List Char → Bool
  | [], [] => false
  | [], _ :: _ => true
  | _ :: _, [] => false
  | x :: xs, y :: ys => if x < y then true else if y < x then false else charsLt xs ys

/-- Python `a < b` on strings (lexicographic by code point). -/
def strLt (a b : String) : Bool := charsLt a.toList b.toList

/-! ## JSON values

A model of the values produced by Python `json.loads`.  Numbers keep
their source token (their numeric value is never consulted by the code
under study). -/

inductive Json where
  | null : Json
  | bool (b : Bool) : Json
  | num (token : String) : Json
  | str (s : String) : Json
  | arr (xs : List Json) : Json
  | obj (fields : List (String × Json)) : Json

/-- Key membership in an association list of object fields. -/
def containsKey (fs : List (String × Json)) (k : String) : Bool :=
  fs.any (fun p => p.1 == k)

/-- Insert-or-replace of one field, the effect of a Python dict assignment:
    a present key keeps its position and gets the new value, an absent key
    is appended. -/
def insRep (fs : List (String × Json)) (k : String) (v : Json) : List (String × Json) :=
  if containsKey fs k then fs.map (fun p => if p.1 == k then (k, v) else p)
  else fs ++ [(k, v)]

/-- Sequential dict construction from parsed fields (later duplicate keys
    overwrite earlier ones, as in Python `json.loads`). -/
def dedupFields (fs : List (String × Json)) : List (String × Json) :=
  fs.foldl (fun acc p => insRep acc p.1 p.2) []

/-! ## A JSON parser, modelling `json.loads`

Fuel-indexed recursive-descent parser over the character list.  It
accepts the JSON surface syntax (strings with the standard escapes,
numbers, arrays, objects, literals, strict leading-zero rule, no raw
control characters inside strings, no trailing data). -/

/-- The four JSON whitespace characters, by code point. -/
def jsonWs (c : Char) : Bool := [32, 9, 10, 13].contains c.toNat

/-- Skip JSON whitespace. -/
def skipWs : List Char → List Char
  | [] => []
  | c :: cs => if jsonWs c then skipWs cs else c :: cs

/-- Value of one hexadecimal digit, by code-point ranges. -/
def hexVal (c : Char) : Option Nat :=
  let n := c.toNat
  if n ≥ 48 && n ≤ 57 then some (n - 48)
  else if n ≥ 97 && n ≤ 102 then some (n - 87)
  else if n ≥ 65 && n ≤ 70 then some (n - 55)
  else none

/-- The table of single-character escapes of JSON strings (escape letter,
    decoded code point). -/
def escTable : List (Char × Nat) :=
  [('"', 34), ('\\', 92), ('/', 47), ('n', 10), ('t', 9), ('r', 13), ('b', 8), ('f', 12)]

/-- Decode a single-character escape via the table. -/
def escChar (e : Char) : Option Char :=
  (escTable.filter (fun p => p.1 == e)).head?.map (fun p => Char.ofNat p.2)

/-- Parse the body of a JSON string (after the opening quote), returning
    the decoded content and the remaining input after the closing quote. -/
def pStrAux : List Char → List Char → Option (String × List Char)
  | _, [] => none
  | acc, '"' :: rest => some (String.mk acc.reverse, rest)
  | acc, '\\' :: rest =>
    match rest with
    | [] => none
    | 'u' :: h1 :: h2 :: h3 :: h4 :: rest2 =>
      match hexVal h1, hexVal h2, hexVal h3, hexVal h4 with
      | some a, some b, some c, some d =>
        pStrAux (Char.ofNat (((a * 16 + b) * 16 + c) * 16 + d) :: acc) rest2
      | _, _, _, _ => none
    | e :: rest2 =>
      match escChar e with
      | some c => pStrAux (c :: acc) rest2
      | none => none
  | acc, c :: rest => if c.toNat < 32 then none else pStrAux (c :: acc) rest

/-- Parse a JSON number token (sign, integer part with the strict
    leading-zero rule, optional fraction, optional exponent). -/
def pNum (cs : List Char) : Option (Json × List Char) :=
  let signAndRest : String × List Char :=
    match cs with
    | '-' :: t => ("-", t)
    | _ => ("", cs)
  match signAndRest.2 with
  | [] => none
  | c :: t =>
    if !c.isDigit then none
    else
      let ds := c :: t.takeWhile Char.isDigit
      let rest := t.dropWhile Char.isDigit
      if c == '0' && ds.length > 1 then none
      else
        let fracPart : Option (List Char × List Char) :=
          match rest with
          | '.' :: u =>
            let fs := u.takeWhile Char.isDigit
            if fs.isEmpty then none else some ('.' :: fs, u.dropWhile Char.isDigit)
          | _ => some ([], rest)
        match fracPart with
        | none => none
        | some (fracs, rest2) =>
          let expPart : Option (List Char × List Char) :=
            match rest2 with
            | e :: u =>
              if e == 'e' || e == 'E' then
                let sgnAndTail : List Char × List Char :=
                  match u with
                  | s2 :: v => if s2 == '+' || s2 == '-' then ([s2], v) else ([], u)
                  | [] => ([], u)
                let es := sgnAndTail.2.takeWhile Char.isDigit
                if es.isEmpty then none
                else some (e :: (sgnAndTail.1 ++ es), sgnAndTail.2.dropWhile Char.isDigit)
              else some ([], rest2)
            | [] => some ([], rest2)
          match expPart with
          | none => none
          | some (exps, rest3) =>
            some (Json.num (signAndRest.1 ++ String.mk (ds ++ fracs ++ exps)), rest3)

mutual

/-- Parse one JSON value. -/
def pVal : Nat → List Char → Option (Json × List Char)
  | 0, _ => none
  | Nat.succ fuel, cs =>
    match skipWs cs with
    | [] => none
    | 'n' :: 'u' :: 'l' :: 'l' :: rest => some (Json.null, rest)
    | 't' :: 'r' :: 'u' :: 'e' :: rest => some (Json.bool true, rest)
    | 'f' :: 'a' :: 'l' :: 's' :: 'e' :: rest => some (Json.bool false, rest)
    | '"' :: rest =>
      match pStrAux [] rest with
      | some (s, rest2) => some (Json.str s, rest2)
      | none => none
    | '[' :: rest =>
      match skipWs rest with
      | ']' :: rest2 => some (Json.arr [], rest2)
      | cs2 =>
        match pElems fuel cs2 with
        | some (xs, rest2) => some (Json.arr xs, rest2)
        | none => none
    | '\x7b' :: rest =>
      match skipWs rest with
      | '\x7d' :: rest2 => some (Json.obj [], rest2)
      | cs2 =>
        match pFields fuel cs2 with
        | some (fs, rest2) => some (Json.obj (dedupFields fs), rest2)
        | none => none
    | c :: cs2 => if c == '-' || c.isDigit then pNum (c :: cs2) else none

/-- Parse the comma-separated elements of a nonempty array, up to and
    including the closing bracket. -/
def pElems : Nat → List Char → Option (List Json × List Char)
  | 0, _ => none
  | Nat.succ fuel, cs =>
    match pVal fuel cs with
    | none => none
    | some (v, rest) =>
      match skipWs rest with
      | ',' :: rest2 =>
        match pElems fuel rest2 with
        | some (vs, rest3) => some (v :: vs, rest3)
        | none => none
      | ']' :: rest2 => some ([v], rest2)
      | _ => none

/-- Parse the comma-separated fields of a nonempty object, up to and
    including the closing brace. -/
def pFields : Nat → List Char → Option (List (String × Json) × List Char)
  | 0, _ => none
  | Nat.succ fuel, cs =>
    match skipWs cs with
    | '"' :: rest =>
      match pStrAux [] rest with
      | none => none
      | some (k, rest1) =>
        match skipWs rest1 with
        | ':' :: rest2 =>
          match pVal fuel rest2 with
          | none => none
          | some (v, rest3) =>
            match skipWs rest3 with
            | ',' :: rest4 =>
              match pFields fuel rest4 with
              | some (fs, rest5) => some ((k, v) :: fs, rest5)
              | none => none
            | '\x7d' :: rest4 => some ([(k, v)], rest4)
            | _ => none
        | _ => none
    | _ => none

end

/-- Model of `json.loads`: parse a complete JSON document, rejecting trailing data. -/
def parseJson (s : String) : Option Json :=
  match pVal (2 * s.length + 4) s.toList with
  | some (j, rest) => if (skipWs rest).isEmpty then some j else none
  | none => none

/-! ## The structured-extraction client (`_analyze_content_v50`) -/

/-- Whitespace stripped by Python `str.strip` (ASCII part), by code point. -/
def pyWs (c : Char) : Bool := [32, 9, 10, 13, 11, 12].contains c.toNat

/-- The response-cleaning step of `_analyze_content_v50`: strip
    surrounding whitespace, then one leading triple-backtick-json fence
    marker and one trailing triple-backtick marker. -/
def cleanResponse (s : String) : String :=
  let cs := ((s.toList.dropWhile pyWs).reverse.dropWhile pyWs).reverse
  let cs1 := if leadMatch "```json".toList cs then cs.drop 7 else cs
  let cs2 :=
    if leadMatch "```".toList.reverse cs1.reverse then cs1.take (cs1.length - 3) else cs1
  String.mk cs2

/-- The default value the code installs for a missing `tags` key. -/
def defaultTagsJson : Json :=
  Json.obj [("person", Json.arr []), ("organization", Json.arr []), ("concept", Json.arr [])]

/-- One empty per-language summary object of the fallback value. -/
def emptyLangJson : Json :=
  Json.obj [("informal_summary_title", Json.str ""), ("informal_summary", Json.str "")]

/-- The fallback analysis value returned by `_analyze_content_v50` on any
    failure (source lines 342-346). -/
def fallbackV50 : Json :=
  Json.obj
    [ ("tags", defaultTagsJson),
      ("analysis", Json.obj [("pt", emptyLangJson), ("en", emptyLangJson)]),
      ("cross_references", Json.arr []) ]

/-- Python `key in value` for a parsed JSON value; `none` models the
    `TypeError` raised for non-container values. -/
def jsonContainsE : Json → String → Option Bool
  | Json.obj fs, k => some (containsKey fs k)
  | Json.arr xs, k =>
    some (xs.any (fun x => match x with | Json.str s => s == k | _ => false))
  | Json.str s, k => some (subMatch k.toList s.toList)
  | _, _ => none

/-- Python `value[key] = v`; `none` models the `TypeError` raised when the
    value is not a dict. -/
def jsonSetItemE : Json → String → Json → Option Json
  | Json.obj fs, k, v => some (Json.obj (insRep fs k v))
  | _, _, _ => none

/-- The post-parse validate-and-normalise step of `_analyze_content_v50`:
    install `tags` and `cross_references` defaults when the keys are
    missing; `none` models an exception escaping to the handler. -/
def validateV50 (j : Json) : Option Json :=
  match jsonContainsE j "tags" with
  | none => none
  | some c1 =>
    match (if c1 then some j else jsonSetItemE j "tags" defaultTagsJson) with
    | none => none
    | some j1 =>
      match jsonContainsE j1 "cross_references" with
      | none => none
      | some c2 =>
        if c2 then some j1 else jsonSetItemE j1 "cross_references" (Json.arr [])

/-- Outcome of the extraction operation: the normalised parsed value, or
    the fixed fallback from the exception handler. -/
inductive ExtractionResult where
  | ok (j : Json) : ExtractionResult
  | fallback : ExtractionResult

/-- Model of `_analyze_content_v50`: the backend response is `none` when the model
    call itself raises (transport/backend error); otherwise the raw
    response text is cleaned, parsed and validated, and any failure along
    the way lands in the exception handler, which returns the fallback. -/
def analyze_content_v50 (response : Option String) : ExtractionResult :=
  match response with
  | none => ExtractionResult.fallback
  | some s =>
    match parseJson (cleanResponse s) with
    | none => ExtractionResult.fallback
    | some j =>
      match validateV50 j with
      | none => ExtractionResult.fallback
      | some j2 => ExtractionResult.ok j2

/-- The failure condition of one extraction call: backend error, parse
    failure, or post-parse validation failure. -/
def extractionFails (response : Option String) : Bool :=
  match response with
  | none => true
  | some s =>
    match parseJson (cleanResponse s) with
    | none => true
    | some j => (validateV50 j).isNone

/-- Field lookup on a parsed JSON object. -/
def jsonGet : Json → String → Option Json
  | Json.obj fs, k => ((fs.filter (fun p => p.1 == k)).head?).map (fun p => p.2)
  | _, _ => none

/-! ## The knowledge-graph linker: data model

Rows of the four tables the linker touches.  Table contents are lists in
row order (Supabase `data` lists); `head?` models taking `data[0]`. -/

/-- A row of the `laws` table, restricted to the columns the linker reads. -/
structure Law where
  id : String
  slug : String
  officialNumber : String
  enactmentDate : Option String
deriving DecidableEq, Repr

/-- A row of the `law_articles` table, restricted to the columns the
    linker reads or writes. -/
structure Article where
  id : String
  lawId : String
  articleOrder : Nat
  statusId : String
  validTo : Option String
deriving DecidableEq, Repr

/-- A row of the `law_relationships` table (document-to-document link). -/
structure LawRel where
  sourceLawId : String
  targetLawId : String
  relationshipType : String
deriving DecidableEq, Repr

/-- A row of the `law_article_references` table (article-to-article link). -/
structure ArtRef where
  sourceArticleId : String
  targetArticleId : String
  referenceType : String
deriving DecidableEq, Repr

/-- The store state the linker reads and writes. -/
structure Store where
  laws : List Law
  lawArticles : List Article
  lawRelationships : List LawRel
  articleReferences : List ArtRef
deriving DecidableEq, Repr

/-- One entry of a Python dict may be absent, present as `null`, or
    present as a string. -/
inductive DictField where
  | absent : DictField
  | null : DictField
  | val (s : String) : DictField
deriving DecidableEq, Repr

/-- Python `d.get(key)`: absent and `null` both give `None`. -/
def DictField.get : DictField → Option String
  | DictField.absent => none
  | DictField.null => none
  | DictField.val s => some s

/-- Python `d.get(key, default)`: the default applies only when the key is
    absent; an explicit `null` still gives `None`. -/
def DictField.getWithDefault (d : String) : DictField → Option String
  | DictField.absent => some d
  | DictField.null => none
  | DictField.val s => some s

/-- One extracted cross-reference record, as consumed by the linker. -/
structure CrossRef where
  relationship : DictField
  number : DictField
  articleNumber : DictField
  url : DictField
deriving DecidableEq, Repr

/-- Events the linker logs, with the shape of the corresponding
    `logger` calls in the source. -/
inductive LogEntry where
  | temporalWarning (sourceLawId sourceDate relationship targetLawId targetDate : String)
  | lawRelCreated
  | lawRelFailed
  | preambleLawRelCreated
  | artRefCreated
  | artRefFailed
  | targetNotFound
  | articleUpdated (articleId status validTo : String)
  | articleUpdateFailed
deriving DecidableEq, Repr

/-- Log severities. -/
inductive LogLevel where
  | debug
  | info
  | warning
deriving DecidableEq, Repr

/-- The level each event is logged at in the source. -/
def LogEntry.level : LogEntry → LogLevel
  | LogEntry.temporalWarning _ _ _ _ _ => LogLevel.warning
  | LogEntry.lawRelCreated => LogLevel.debug
  | LogEntry.lawRelFailed => LogLevel.debug
  | LogEntry.preambleLawRelCreated => LogLevel.info
  | LogEntry.artRefCreated => LogLevel.debug
  | LogEntry.artRefFailed => LogLevel.debug
  | LogEntry.targetNotFound => LogLevel.debug
  | LogEntry.articleUpdated _ _ _ => LogLevel.info
  | LogEntry.articleUpdateFailed => LogLevel.warning

/-! ## Target resolution (`_find_target_law_v50`, `_find_target_article_v50`) -/

/-- Lowercase a string characterwise (Python `str.lower`, ASCII part). -/
def lowerStr (s : String) : String := String.mk (s.toList.map Char.toLower)

/-- Uppercase a string characterwise (Python `str.upper`, ASCII part). -/
def upperStr (s : String) : String := String.mk (s.toList.map Char.toUpper)

/-- Split a char list on a separator character. -/
def splitOnChar (sep : Char) : List Char → List (List Char)
  | [] => [[]]
  | c :: rest =>
    let r := splitOnChar sep rest
    if c == sep then [] :: r
    else
      match r with
      | [] => [[c]]
      | h :: t => (c :: h) :: t

/-- The regex search for the URL slug in `_find_target_law_v50`: one `/`
    followed by a nonempty final run of non-`/` characters at the end of
    the URL. -/
def slugFromUrl (url : String) : Option String :=
  let cs := url.toList
  if cs.contains '/' then
    match (splitOnChar '/' cs).getLast? with
    | some seg => if seg.isEmpty then none else some (String.mk seg)
    | none => none
  else none

/-- Priority-1 lookup: match a law whose `slug` equals the final path
    segment of the URL (skipped for a falsy URL). -/
def urlLookup (laws : List Law) (url : Option String) : Option Law :=
  if truthy url then
    match slugFromUrl (url.getD "") with
    | some slug => (laws.filter (fun l => l.slug == slug)).head?
    | none => none
  else none

/-- Priority-2 lookup: exact `official_number` match first, then a
    case-insensitive substring (`ilike %number%`) match, first row each
    time (skipped for a falsy number). -/
def numberLookup (laws : List Law) (number : Option String) : Option Law :=
  if truthy number then
    let n := number.getD ""
    match (laws.filter (fun l => l.officialNumber == n)).head? with
    | some l => some l
    | none =>
      (laws.filter (fun l =>
        subMatch (lowerStr n).toList (lowerStr l.officialNumber).toList)).head?
  else none

/-- Model of `_find_target_law_v50`: URL-based matching first; only when it yields
    nothing, number-based matching. -/
def find_target_law_v50 (laws : List Law) (url number : Option String) : Option Law :=
  match urlLookup laws url with
  | some l => some l
  | none => numberLookup laws number

/-- Numeric value of a digit run. -/
def digitsToNat (ds : List Char) : Nat :=
  ds.foldl (fun n c => n * 10 + (c.toNat - 48)) 0

/-- The regex search for the first integer in an article designator. -/
def firstIntegerAux : List Char → Option Nat
  | [] => none
  | c :: cs =>
    if c.isDigit then some (digitsToNat (c :: cs.takeWhile Char.isDigit))
    else firstIntegerAux cs

/-- First run of digits in a string, as a number. -/
def firstInteger (s : String) : Option Nat := firstIntegerAux s.toList

/-- Model of `_find_target_article_v50`: parse the article order from the
    designator, then take the first ACTIVE article of the target law with
    that order. -/
def find_target_article_v50 (arts : List Article) (targetLawId : String)
    (articleNumber : String) : Option String :=
  match firstInteger articleNumber with
  | none => none
  | some no =>
    ((arts.filter (fun a =>
      decide (a.lawId = targetLawId) && decide (a.articleOrder = no) &&
      decide (a.statusId = "ACTIVE"))).head?).map Article.id

/-! ## Dates (`datetime.fromisoformat`, `timedelta(days=1)`) -/

/-- Gregorian leap-year rule. -/
def isLeap (y : Nat) : Bool := (y % 4 == 0 && y % 100 != 0) || y % 400 == 0

/-- Length of a month. -/
def daysInMonth (y m : Nat) : Nat :=
  if m == 2 then (if isLeap y then 29 else 28)
  else if m == 4 || m == 6 || m == 9 || m == 11 then 30
  else 31

/-- Numeric value of an all-digit char list (`none` otherwise). -/
def digitsValue (ds : List Char) : Option Nat :=
  if !ds.isEmpty && ds.all Char.isDigit then some (digitsToNat ds) else none

/-- Model of `datetime.fromisoformat(...).date()` on a `YYYY-MM-DD` string:
    `none` models the `ValueError` for a malformed or out-of-range date. -/
def parseIsoDate (s : String) : Option (Nat × Nat × Nat) :=
  match splitOnChar '-' s.toList with
  | [ys, ms, ds] =>
    if ys.length == 4 && ms.length == 2 && ds.length == 2 then
      match digitsValue ys, digitsValue ms, digitsValue ds with
      | some y, some m, some d =>
        if 1 ≤ y && y ≤ 9999 && 1 ≤ m && m ≤ 12 && 1 ≤ d && d ≤ daysInMonth y m then
          some (y, m, d)
        else none
      | _, _, _ => none
    else none
  | _ => none

/-- Zero-pad to two digits. -/
def pad2 (n : Nat) : String := if n < 10 then "0" ++ toString n else toString n

/-- Zero-pad to four digits. -/
def pad4 (n : Nat) : String :=
  if n < 10 then "000" ++ toString n
  else if n < 100 then "00" ++ toString n
  else if n < 1000 then "0" ++ toString n
  else toString n

/-- Format a date back to ISO `YYYY-MM-DD`. -/
def fmtIsoDate (y m d : Nat) : String := pad4 y ++ "-" ++ pad2 m ++ "-" ++ pad2 d

/-- Model of `(fromisoformat(s).date() - timedelta(days=1)).isoformat()`:
    the calendar day before an ISO date. -/
def dayBeforeIso (s : String) : Option String :=
  match parseIsoDate s with
  | none => none
  | some (y, m, d) =>
    if d > 1 then some (fmtIsoDate y m (d - 1))
    else if m > 1 then some (fmtIsoDate y (m - 1) (daysInMonth y (m - 1)))
    else if y > 1 then some (fmtIsoDate (y - 1) 12 31)
    else none

/-! ## Status updates and reference processing -/

/-- The status written for each relationship kind (`none`: no update). -/
def statusFor (relationship : String) : Option String :=
  if relationship == "revokes" then some "REVOKED"
  else if relationship == "amends" then some "SUPERSEDED"
  else none

/-- Model of `_update_target_article_status_v50`: set the status and the validity
    end date (day before the source enactment date) of every row with the
    target id; its internal handler turns a date-parsing error into a
    warning and no update. -/
def update_target_article_status_v50 (arts : List Article)
    (targetArticleId relationship sourceEnactmentDate : String) :
    List Article × List LogEntry :=
  match statusFor relationship with
  | none => (arts, [])
  | some st =>
    match dayBeforeIso sourceEnactmentDate with
    | none => (arts, [LogEntry.articleUpdateFailed])
    | some vt =>
      (arts.map (fun a =>
        if a.id == targetArticleId then { a with statusId := st, validTo := some vt } else a),
       [LogEntry.articleUpdated targetArticleId st vt])

/-- The relationship kind of a reference: Python
    `ref.get('relationship', 'cites')`. -/
def relValue (ref : CrossRef) : Option String :=
  DictField.getWithDefault "cites" ref.relationship

/-- The internal-reference test: neither URL nor number is truthy. -/
def skipRef (ref : CrossRef) : Bool :=
  !truthy ref.url.get && !truthy ref.number.get

/-- The temporal sanity check preceding the law-relationship insert:
    warn when an amends/revokes source is dated strictly before its
    target (string comparison of ISO dates, as in the source). -/
def tempWarn (sourceLawId : String) (sourceEnactmentDate : Option String)
    (relationship : Option String) (tgt : Law) : List LogEntry :=
  match relationship, sourceEnactmentDate, tgt.enactmentDate with
  | some r, some sd, some td =>
    if (r == "amends" || r == "revokes") && !(sd == "") && !(td == "") && strLt sd td then
      [LogEntry.temporalWarning sourceLawId sd r tgt.id td]
    else []
  | _, _, _ => []

/-- Block A of the loop body of `_process_and_link_references`: temporal
    check, then the guarded insert of the document-to-document link.  A
    `none` relationship models the `AttributeError` of `None.upper()`,
    a present duplicate the insert's constraint violation; both land in
    the debug-logging handler and leave the table unchanged. -/
def linkLawBlock (sourceLawId : String) (sourceEnactmentDate : Option String)
    (rels : List LawRel) (relationship : Option String) (tgt : Law) :
    List LawRel × List LogEntry × Nat :=
  let warn := tempWarn sourceLawId sourceEnactmentDate relationship tgt
  match relationship with
  | none => (rels, warn ++ [LogEntry.lawRelFailed], 0)
  | some r =>
    let rcd : LawRel := ⟨sourceLawId, tgt.id, upperStr r⟩
    if rcd ∈ rels then (rels, warn ++ [LogEntry.lawRelFailed], 0)
    else (rels ++ [rcd], warn ++ [LogEntry.lawRelCreated], 1)

/-- Blocks B and C of the loop body of `_process_and_link_references`:
    resolve the target article, insert the article-to-article link, and —
    only when that insert succeeds and the kind is amends/revokes with a
    truthy source date — update the target article's status. -/
def linkArtBlock (sourceArticleId : String) (sourceEnactmentDate : Option String)
    (arts : List Article) (arefs : List ArtRef) (relationship : Option String)
    (targetLawId : String) (articleNumber : Option String) :
    List Article × List ArtRef × List LogEntry × Nat :=
  if truthy articleNumber then
    match find_target_article_v50 arts targetLawId (articleNumber.getD "") with
    | some targetArticleId =>
      match relationship with
      | none => (arts, arefs, [LogEntry.artRefFailed], 0)
      | some r =>
        let rcd : ArtRef := ⟨sourceArticleId, targetArticleId, upperStr r⟩
        if rcd ∈ arefs then (arts, arefs, [LogEntry.artRefFailed], 0)
        else
          if (r == "amends" || r == "revokes") && truthy sourceEnactmentDate then
            let upd := update_target_article_status_v50 arts targetArticleId r
              (sourceEnactmentDate.getD "")
            (upd.1, arefs ++ [rcd], [LogEntry.artRefCreated] ++ upd.2, 1)
          else (arts, arefs ++ [rcd], [LogEntry.artRefCreated], 1)
    | none => (arts, arefs, [], 0)
  else (arts, arefs, [], 0)

/-- The loop body of `_process_and_link_references` for one reference:
    skip internal references, resolve the target law, then blocks A-C.
    Returns the new store, the log entries emitted, and the two counter
    increments. -/
def processRefV50 (sourceArticleId sourceLawId : String)
    (sourceEnactmentDate : Option String) (s : Store) (ref : CrossRef) :
    Store × List LogEntry × Nat × Nat :=
  if skipRef ref then (s, [], 0, 0)
  else
    match find_target_law_v50 s.laws ref.url.get ref.number.get with
    | none => (s, [LogEntry.targetNotFound], 0, 0)
    | some tgt =>
      let rel := relValue ref
      let blkA := linkLawBlock sourceLawId sourceEnactmentDate s.lawRelationships rel tgt
      let blkB := linkArtBlock sourceArticleId sourceEnactmentDate s.lawArticles
        s.articleReferences rel tgt.id ref.articleNumber.get
      (⟨s.laws, blkB.1, blkA.1, blkB.2.1⟩, blkA.2.1 ++ blkB.2.2.1, blkA.2.2, blkB.2.2.2)

/-- Model of `_process_and_link_references`: fold the loop body over the reference
    list, accumulating the log and the two counters. -/
def process_and_link_references (sourceArticleId sourceLawId : String)
    (sourceEnactmentDate : Option String) (s : Store) (refs : List CrossRef) :
    Store × List LogEntry × Nat × Nat :=
  refs.foldl (fun acc ref =>
    let step := processRefV50 sourceArticleId sourceLawId sourceEnactmentDate acc.1 ref
    (step.1, acc.2.1 ++ step.2.1, acc.2.2.1 + step.2.2.1, acc.2.2.2 + step.2.2.2))
    (s, [], 0, 0)

/-- The loop body of `_process_preamble_references` for one reference:
    law-to-law linking only. -/
def processPreambleRefV50 (sourceLawId : String) (sourceEnactmentDate : Option String)
    (s : Store) (ref : CrossRef) : Store × List LogEntry × Nat :=
  if skipRef ref then (s, [], 0)
  else
    match find_target_law_v50 s.laws ref.url.get ref.number.get with
    | none => (s, [], 0)
    | some tgt =>
      let rel := relValue ref
      let warn := tempWarn sourceLawId sourceEnactmentDate rel tgt
      match rel with
      | none => (s, warn ++ [LogEntry.lawRelFailed], 0)
      | some r =>
        let rcd : LawRel := ⟨sourceLawId, tgt.id, upperStr r⟩
        if rcd ∈ s.lawRelationships then (s, warn ++ [LogEntry.lawRelFailed], 0)
        else
          ({ s with lawRelationships := s.lawRelationships ++ [rcd] },
           warn ++ [LogEntry.preambleLawRelCreated], 1)

/-- Model of `_process_preamble_references`: fold the preamble loop body. -/
def process_preamble_references (sourceLawId : String)
    (sourceEnactmentDate : Option String) (s : Store) (refs : List CrossRef) :
    Store × List LogEntry × Nat :=
  refs.foldl (fun acc ref =>
    let step := processPreambleRefV50 sourceLawId sourceEnactmentDate acc.1 ref
    (step.1, acc.2.1 ++ step.2.1, acc.2.2 + step.2.2)) (s, [], 0)

/-! ## C10: the query-oracle model of `_find_target_law_v50`

The pure `find_target_law_v50` assumes the store answers; this variant
lets each of the three queries (slug equality, number equality, number
substring) either answer with rows or raise, and mirrors the enclosing
`try/except` that turns any raise into `None`. -/

/-- Outcome of one store query: a row list, or a raised exception. -/
inductive QueryOutcome where
  | rows (ls : List Law)
  | err
deriving DecidableEq, Repr

/-- The URL step of the fallible resolver: `some r` means "return `r`
    now" (`some none` being the caught exception), `none` means "fall
    through to number matching". -/
def urlLookupQ (slugQ : String → QueryOutcome) (url : Option String) :
    Option (Option Law) :=
  if truthy url then
    match slugFromUrl (url.getD "") with
    | some slug =>
      match slugQ slug with
      | QueryOutcome.err => some none
      | QueryOutcome.rows (l :: _) => some (some l)
      | QueryOutcome.rows [] => none
    | none => none
  else none

/-- The number step of the fallible resolver: exact query, then the
    substring query; a raise in either gives `none` via the handler. -/
def numberLookupQ (numQ likeQ : String → QueryOutcome) (number : Option String) :
    Option Law :=
  if truthy number then
    let n := number.getD ""
    match numQ n with
    | QueryOutcome.err => none
    | QueryOutcome.rows (l :: _) => some l
    | QueryOutcome.rows [] =>
      match likeQ n with
      | QueryOutcome.err => none
      | QueryOutcome.rows (l :: _) => some l
      | QueryOutcome.rows [] => none
  else none

/-- Model of `_find_target_law_v50` against a fallible store: `slugQ`, `numQ`,
    `likeQ` answer the three queries; any `err` is caught by the
    function's handler, which returns `none`. -/
def find_target_law_v50_q (slugQ numQ likeQ : String → QueryOutcome)
    (url number : Option String) : Option Law :=
  match urlLookupQ slugQ url with
  | some r => r
  | none => numberLookupQ numQ likeQ number

/-! ## Theorems: the structured-extraction client -/

/-- C1: on any failure of the extraction operation (backend/transport
    error, empty response, malformed JSON, post-parse validation failure)
    `_analyze_content_v50` returns the fixed fallback value, whose shape
    has the declared empty tags, empty bilingual summaries and an empty
    cross-reference list; representative concrete failures of each family
    are also evaluated. -/
theorem analyze_content_never_raises (response : Option String)
    (h : extractionFails response = true) :
    analyze_content_v50 response = ExtractionResult.fallback ∧
    jsonGet fallbackV50 "tags" = some defaultTagsJson ∧
    jsonGet fallbackV50 "analysis" =
      some (Json.obj [("pt", emptyLangJson), ("en", emptyLangJson)]) ∧
    jsonGet fallbackV50 "cross_references" = some (Json.arr []) ∧
    analyze_content_v50 none = ExtractionResult.fallback ∧
    analyze_content_v50 (some "") = ExtractionResult.fallback ∧
    analyze_content_v50 (some "\x7b\"tags\": ") = ExtractionResult.fallback ∧
    analyze_content_v50 (some "3") = ExtractionResult.fallback := by
  refine ⟨?_, rfl, rfl, rfl, rfl, rfl, rfl, rfl⟩
  cases response with
  | none => rfl
  | some s =>
    cases hp : parseJson (cleanResponse s) with
    | none => simp [analyze_content_v50, hp]
    | some j =>
      simp only [extractionFails, hp] at h
      cases hv : validateV50 j with
      | none => simp [analyze_content_v50, hp, hv]
      | some j2 => rw [hv] at h; exact absurd h (by simp [Option.isNone])

/-- C1 witness: a concrete malformed response satisfies the failure
    hypothesis and collapses to the fallback. -/
theorem analyze_content_never_raises_witness :
    analyze_content_v50 (some "prose, not JSON") = ExtractionResult.fallback :=
  (analyze_content_never_raises (some "prose, not JSON") (by decide)).1

/-- The normalisation `_analyze_content_v50` applies to the field list of
    a parsed JSON object: append an empty default for each of the two
    checked keys that is missing. -/
def addMissingDefaults (fs : List (String × Json)) : List (String × Json) :=
  let fs1 := if containsKey fs "tags" then fs else fs ++ [("tags", defaultTagsJson)]
  if containsKey fs1 "cross_references" then fs1
  else fs1 ++ [("cross_references", Json.arr [])]

/-- C2 (counterexample): valid JSON missing the required top-level key
    `tags` is not answered with the fallback — the code fills the missing
    key with its empty default and returns the normalised object. -/
theorem extract_missing_field_counterexample :
    analyze_content_v50 (some "\x7b\"cross_references\": []\x7d") ≠
      ExtractionResult.fallback ∧
    analyze_content_v50 (some "\x7b\"cross_references\": []\x7d") =
      ExtractionResult.ok
        (Json.obj [("cross_references", Json.arr []), ("tags", defaultTagsJson)]) := by
  refine ⟨?_, rfl⟩
  intro h
  have h2 : ExtractionResult.ok
      (Json.obj [("cross_references", Json.arr []), ("tags", defaultTagsJson)]) =
      ExtractionResult.fallback := h
  exact ExtractionResult.noConfusion h2

/-- C2 (amended): whenever the backend response cleans and parses to a
    JSON object, the operation returns `Ok` of that object with each
    missing checked key (`tags`, `cross_references`) appended with its
    empty default — absence of a required key is normalised, not treated
    as failure. -/
theorem extract_missing_field_normalizes (s : String) (fs : List (String × Json))
    (hp : parseJson (cleanResponse s) = some (Json.obj fs)) :
    analyze_content_v50 (some s) =
      ExtractionResult.ok (Json.obj (addMissingDefaults fs)) := by
  by_cases h1 : containsKey fs "tags"
  · by_cases h2 : containsKey fs "cross_references"
    · simp [analyze_content_v50, hp, validateV50, jsonContainsE, jsonSetItemE,
        addMissingDefaults, h1, h2]
    · simp [analyze_content_v50, hp, validateV50, jsonContainsE, jsonSetItemE,
        addMissingDefaults, insRep, h1, h2]
  · have hins : insRep fs "tags" defaultTagsJson = fs ++ [("tags", defaultTagsJson)] := by
      simp [insRep, h1]
    by_cases h2 : containsKey (fs ++ [("tags", defaultTagsJson)]) "cross_references"
    · simp [analyze_content_v50, hp, validateV50, jsonContainsE, jsonSetItemE,
        addMissingDefaults, hins, h1, h2]
    · simp [analyze_content_v50, hp, validateV50, jsonContainsE, jsonSetItemE,
        addMissingDefaults, insRep, hins, h1, h2]

/-- C2 witness: a concrete object missing `tags` is normalised to carry
    the default tags and returned as `Ok`. -/
theorem extract_missing_field_normalizes_witness :
    analyze_content_v50 (some "\x7b\"analysis\": \x7b\x7d\x7d") =
      ExtractionResult.ok
        (Json.obj (addMissingDefaults [("analysis", Json.obj [])])) :=
  extract_missing_field_normalizes "\x7b\"analysis\": \x7b\x7d\x7d"
    [("analysis", Json.obj [])] rfl

/-- C8: a backend response that cleans and parses to a JSON object
    already containing all declared top-level keys is returned as `Ok`
    with exactly the parsed object — no field altered, added or removed. -/
theorem extract_identity (s : String) (fs : List (String × Json))
    (hp : parseJson (cleanResponse s) = some (Json.obj fs))
    (h1 : containsKey fs "tags" = true)
    (_h2 : containsKey fs "analysis" = true)
    (h3 : containsKey fs "cross_references" = true) :
    analyze_content_v50 (some s) = ExtractionResult.ok (Json.obj fs) := by
  simp [analyze_content_v50, hp, validateV50, jsonContainsE, h1, h3]

/-- C8 witness: a concrete shape-complete object is returned unchanged. -/
theorem extract_identity_witness :
    analyze_content_v50
      (some "\x7b\"tags\": \x7b\x7d, \"analysis\": \x7b\x7d, \"cross_references\": []\x7d") =
      ExtractionResult.ok
        (Json.obj [("tags", Json.obj []), ("analysis", Json.obj []),
                   ("cross_references", Json.arr [])]) :=
  extract_identity
    "\x7b\"tags\": \x7b\x7d, \"analysis\": \x7b\x7d, \"cross_references\": []\x7d"
    [("tags", Json.obj []), ("analysis", Json.obj []), ("cross_references", Json.arr [])]
    rfl rfl rfl rfl

/-! ## Theorems: target resolution -/

/-- A URL from which a slug is extracted is nonempty (it contains a `/`). -/
theorem slug_needs_nonempty {u slug : String} (h : slugFromUrl u = some slug) :
    u ≠ "" := by
  intro he
  subst he
  rw [show slugFromUrl "" = none from rfl] at h
  exact Option.noConfusion h

/-- C3: resolution priority of `_find_target_law_v50` — a URL whose final
    path segment matches a stored slug wins outright (number matching is
    never consulted); otherwise a truthy number is matched exactly first,
    and only when the exact filter yields nothing does the first
    case-insensitive substring match win. -/
theorem find_target_law_priority :
    (∀ laws u slug law number,
       slugFromUrl u = some slug →
       (laws.filter (fun l => l.slug == slug)).head? = some law →
       find_target_law_v50 laws (some u) number = some law) ∧
    (∀ laws url number law,
       urlLookup laws url = none →
       truthy number = true →
       (laws.filter (fun l => l.officialNumber == number.getD "")).head? = some law →
       find_target_law_v50 laws url number = some law) ∧
    (∀ laws url number law,
       urlLookup laws url = none →
       truthy number = true →
       (laws.filter (fun l => l.officialNumber == number.getD "")).head? = none →
       (laws.filter (fun l =>
          subMatch (lowerStr (number.getD "")).toList
            (lowerStr l.officialNumber).toList)).head? = some law →
       find_target_law_v50 laws url number = some law) := by
  refine ⟨?_, ?_, ?_⟩
  · intro laws u slug law number hs hf
    have hne : u ≠ "" := slug_needs_nonempty hs
    have ht : truthy (some u) = true := by simp [truthy, hne]
    simp [find_target_law_v50, urlLookup, ht, hs, hf]
  · intro laws url number law hurl ht hf
    simp [find_target_law_v50, hurl, numberLookup, ht, hf]
  · intro laws url number law hurl ht hf1 hf2
    rw [List.filter_head?] at hf2
    simp only [String.toList] at hf2
    simp [find_target_law_v50, hurl, numberLookup, ht, hf1, hf2]

/-- C3 witness: with both a resolvable URL and a different resolvable
    number, the URL's document is the one resolved. -/
theorem find_target_law_priority_witness :
    find_target_law_v50
      [⟨"BYNUM", "other-slug", "41/2023", none⟩, ⟨"BYURL", "decreto-19478", "19478", none⟩]
      (some "https://x.pt/dr/detalhe/decreto-19478") (some "41/2023") =
      some ⟨"BYURL", "decreto-19478", "19478", none⟩ :=
  find_target_law_priority.1
    [⟨"BYNUM", "other-slug", "41/2023", none⟩, ⟨"BYURL", "decreto-19478", "19478", none⟩]
    "https://x.pt/dr/detalhe/decreto-19478" "decreto-19478"
    ⟨"BYURL", "decreto-19478", "19478", none⟩ (some "41/2023") rfl rfl

/-! ## Theorems: reference processing -/

/-- A skipped reference has a falsy URL and a falsy number. -/
theorem skip_true_elim {ref : CrossRef} (h : skipRef ref = true) :
    truthy ref.url.get = false ∧ truthy ref.number.get = false := by
  unfold skipRef at h
  simp only [Bool.and_eq_true, Bool.not_eq_true'] at h
  exact h

/-- If the target law resolves, the reference was not internal-only. -/
theorem find_some_not_skip {laws : List Law} {ref : CrossRef} {tgt : Law}
    (h : find_target_law_v50 laws ref.url.get ref.number.get = some tgt) :
    skipRef ref = false := by
  cases hs : skipRef ref with
  | false => rfl
  | true =>
    obtain ⟨hu, hn⟩ := skip_true_elim hs
    simp [find_target_law_v50, urlLookup, numberLookup, hu, hn] at h

/-- C7: a reference carrying neither a truthy URL nor a truthy number is
    skipped entirely by both reference processors: store unchanged, no
    log output, zero counters — regardless of any article designator. -/
theorem link_skips_internal_refs (srcArt srcLaw : String) (sd : Option String)
    (s : Store) (ref : CrossRef)
    (hu : truthy ref.url.get = false) (hn : truthy ref.number.get = false) :
    processRefV50 srcArt srcLaw sd s ref = (s, [], 0, 0) ∧
    processPreambleRefV50 srcLaw sd s ref = (s, [], 0) := by
  have hskip : skipRef ref = true := by simp [skipRef, hu, hn]
  exact ⟨by simp [processRefV50, hskip], by simp [processPreambleRefV50, hskip]⟩

/-- C7 witness: the spec's example — a reference with only an article
    designator produces no link at all. -/
theorem link_skips_internal_refs_witness :
    processRefV50 "A" "S" (some "2024-01-01")
      ⟨[⟨"T", "t", "41/2023", none⟩], [⟨"a2", "T", 2, "ACTIVE", none⟩], [], []⟩
      ⟨DictField.absent, DictField.absent, DictField.val "2", DictField.null⟩ =
      (⟨[⟨"T", "t", "41/2023", none⟩], [⟨"a2", "T", 2, "ACTIVE", none⟩], [], []⟩, [], 0, 0) ∧
    processPreambleRefV50 "S" (some "2024-01-01")
      ⟨[⟨"T", "t", "41/2023", none⟩], [⟨"a2", "T", 2, "ACTIVE", none⟩], [], []⟩
      ⟨DictField.absent, DictField.absent, DictField.val "2", DictField.null⟩ =
      (⟨[⟨"T", "t", "41/2023", none⟩], [⟨"a2", "T", 2, "ACTIVE", none⟩], [], []⟩, [], 0) :=
  link_skips_internal_refs "A" "S" (some "2024-01-01")
    ⟨[⟨"T", "t", "41/2023", none⟩], [⟨"a2", "T", 2, "ACTIVE", none⟩], [], []⟩
    ⟨DictField.absent, DictField.absent, DictField.val "2", DictField.null⟩
    rfl rfl

/-- C4 (counterexample): a `amends` reference whose source enactment date
    equals the target's (so the source is *not strictly later*) produces
    no temporal-inconsistency warning — the emitted log is exactly the
    link-created entry — although the link itself is inserted.  The code
    warns only when the source is strictly earlier. -/
theorem link_temporal_counterexample :
    (processRefV50 "A" "S" (some "2024-01-01")
        ⟨[⟨"T", "t-slug", "41/2023", some "2024-01-01"⟩], [], [], []⟩
        ⟨DictField.val "amends", DictField.val "41/2023", DictField.absent,
         DictField.absent⟩).2.1 =
      [LogEntry.lawRelCreated] ∧
    LawRel.mk "S" "T" "AMENDS" ∈
      (processRefV50 "A" "S" (some "2024-01-01")
        ⟨[⟨"T", "t-slug", "41/2023", some "2024-01-01"⟩], [], [], []⟩
        ⟨DictField.val "amends", DictField.val "41/2023", DictField.absent,
         DictField.absent⟩).1.lawRelationships ∧
    strLt "2024-01-01" "2024-01-01" = false := by
  decide

/-- C4 (amended): for an amends/revokes reference with both dates known
    and the source date *strictly earlier* than the target's, both
    processors log the temporal-inconsistency warning (a warning-level
    event) and the document-to-document link record is nevertheless
    present in the store afterwards. -/
theorem link_temporal_warning
    (srcArt srcLaw sd : String) (s : Store) (ref : CrossRef) (r : String)
    (tgt : Law) (td : String)
    (hrel : relValue ref = some r)
    (hkind : r = "amends" ∨ r = "revokes")
    (hfind : find_target_law_v50 s.laws ref.url.get ref.number.get = some tgt)
    (htd : tgt.enactmentDate = some td)
    (hsd : sd ≠ "") (htdne : td ≠ "")
    (hlt : strLt sd td = true) :
    LogEntry.temporalWarning srcLaw sd r tgt.id td ∈
      (processRefV50 srcArt srcLaw (some sd) s ref).2.1 ∧
    LawRel.mk srcLaw tgt.id (upperStr r) ∈
      (processRefV50 srcArt srcLaw (some sd) s ref).1.lawRelationships ∧
    LogEntry.temporalWarning srcLaw sd r tgt.id td ∈
      (processPreambleRefV50 srcLaw (some sd) s ref).2.1 ∧
    LawRel.mk srcLaw tgt.id (upperStr r) ∈
      (processPreambleRefV50 srcLaw (some sd) s ref).1.lawRelationships ∧
    (LogEntry.temporalWarning srcLaw sd r tgt.id td).level = LogLevel.warning := by
  have hskip := find_some_not_skip hfind
  have hk : (r == "amends" || r == "revokes") = true := by
    rcases hkind with h | h <;> simp [h]
  have hwarn : tempWarn srcLaw (some sd) (some r) tgt =
      [LogEntry.temporalWarning srcLaw sd r tgt.id td] := by
    unfold tempWarn
    rw [htd]
    simp [hk, hsd, htdne, hlt]
  by_cases hmem : LawRel.mk srcLaw tgt.id (upperStr r) ∈ s.lawRelationships
  · refine ⟨?_, ?_, ?_, ?_, rfl⟩ <;>
      simp [processRefV50, processPreambleRefV50, hskip, hfind, hrel,
        linkLawBlock, hwarn, hmem]
  · refine ⟨?_, ?_, ?_, ?_, rfl⟩ <;>
      simp [processRefV50, processPreambleRefV50, hskip, hfind, hrel,
        linkLawBlock, hwarn, hmem]

/-- C4 witness: a strictly-earlier source date triggers the warning and
    the link is still recorded. -/
theorem link_temporal_warning_witness :
    LogEntry.temporalWarning "S" "2020-01-01" "amends" "T" "2021-01-01" ∈
      (processRefV50 "A" "S" (some "2020-01-01")
        ⟨[⟨"T", "t-slug", "41/2023", some "2021-01-01"⟩], [], [], []⟩
        ⟨DictField.val "amends", DictField.val "41/2023", DictField.absent,
         DictField.absent⟩).2.1 ∧
    LawRel.mk "S" "T" (upperStr "amends") ∈
      (processRefV50 "A" "S" (some "2020-01-01")
        ⟨[⟨"T", "t-slug", "41/2023", some "2021-01-01"⟩], [], [], []⟩
        ⟨DictField.val "amends", DictField.val "41/2023", DictField.absent,
         DictField.absent⟩).1.lawRelationships :=
  have h := link_temporal_warning "A" "S" "2020-01-01"
    ⟨[⟨"T", "t-slug", "41/2023", some "2021-01-01"⟩], [], [], []⟩
    ⟨DictField.val "amends", DictField.val "41/2023", DictField.absent, DictField.absent⟩
    "amends" ⟨"T", "t-slug", "41/2023", some "2021-01-01"⟩ "2021-01-01"
    rfl (Or.inl rfl) rfl rfl (by decide) (by decide) rfl
  ⟨h.1, h.2.1⟩

/-- C5 (counterexample): a `revokes` reference that resolves (kind,
    article and date all as the claim requires) but whose article-to-
    article link already exists leaves the target article untouched —
    the status update is skipped when the insert fails as a duplicate. -/
theorem link_status_update_counterexample :
    (processRefV50 "A" "S" (some "2024-01-01")
        ⟨[⟨"T", "t", "41/2023", some "2023-06-02"⟩],
         [⟨"a5", "T", 5, "ACTIVE", none⟩], [], [⟨"A", "a5", "REVOKES"⟩]⟩
        ⟨DictField.val "revokes", DictField.val "41/2023", DictField.val "5",
         DictField.null⟩).1.lawArticles =
      [⟨"a5", "T", 5, "ACTIVE", none⟩] ∧
    find_target_article_v50 [⟨"a5", "T", 5, "ACTIVE", none⟩] "T" "5" = some "a5" := by
  decide

/-- If the kind is neither amends nor revokes, the article block never
    touches the articles table. -/
theorem linkArtBlock_other_kind (srcArt : String) (sdo : Option String)
    (arts : List Article) (arefs : List ArtRef) (r : String) (tgtId : String)
    (an : Option String) (h1 : r ≠ "amends") (h2 : r ≠ "revokes") :
    (linkArtBlock srcArt sdo arts arefs (some r) tgtId an).1 = arts := by
  have ha : (r == "amends") = false := by simp [h1]
  have hb : (r == "revokes") = false := by simp [h2]
  unfold linkArtBlock
  by_cases han : truthy an
  · simp only [han, if_true]
    cases hfa : find_target_article_v50 arts tgtId (an.getD "") with
    | none => rfl
    | some tid =>
      by_cases hmem : ArtRef.mk srcArt tid (upperStr r) ∈ arefs
      · simp [hmem]
      · simp [hmem, ha, hb]
  · simp [han]

/-- C5 (amended): when an amends/revokes reference resolves to a target
    law and (within it) to a target article, the source enactment date is
    a truthy well-formed ISO date, and the article-to-article link does
    not already exist (so its insert succeeds), the articles table
    becomes the pointwise update writing the mapped status and the day
    before the source date into every row with the target id; and for any
    kind other than amends/revokes no status update ever occurs. -/
theorem link_status_update :
    (∀ srcArt srcLaw sd s ref r tgt tid vt,
      relValue ref = some r →
      (r = "amends" ∨ r = "revokes") →
      find_target_law_v50 s.laws ref.url.get ref.number.get = some tgt →
      truthy ref.articleNumber.get = true →
      find_target_article_v50 s.lawArticles tgt.id (ref.articleNumber.get.getD "") =
        some tid →
      sd ≠ "" →
      dayBeforeIso sd = some vt →
      ArtRef.mk srcArt tid (upperStr r) ∉ s.articleReferences →
      (processRefV50 srcArt srcLaw (some sd) s ref).1.lawArticles =
        s.lawArticles.map (fun a =>
          if a.id == tid then
            { a with statusId := if r == "revokes" then "REVOKED" else "SUPERSEDED",
                     validTo := some vt }
          else a)) ∧
    (∀ srcArt srcLaw sdo s ref r,
      relValue ref = some r → r ≠ "amends" → r ≠ "revokes" →
      (processRefV50 srcArt srcLaw sdo s ref).1.lawArticles = s.lawArticles) ∧
    (∀ arts tid r d, r ≠ "amends" → r ≠ "revokes" →
      update_target_article_status_v50 arts tid r d = (arts, [])) := by
  refine ⟨?_, ?_, ?_⟩
  · intro srcArt srcLaw sd s ref r tgt tid vt hrel hkind hfind han hart hsd hvt hnew
    have hskip := find_some_not_skip hfind
    have hcond : ((r == "amends" || r == "revokes") && truthy (some sd)) = true := by
      rcases hkind with h | h <;> simp [h, truthy, hsd]
    have hst : statusFor r = some (if r == "revokes" then "REVOKED" else "SUPERSEDED") := by
      rcases hkind with h | h <;> simp [h, statusFor]
    simp [processRefV50, hskip, hfind, hrel, linkArtBlock, han, hart, hnew, hcond,
      update_target_article_status_v50, hst, hvt]
  · intro srcArt srcLaw sdo s ref r hrel h1 h2
    by_cases hskip : skipRef ref
    · simp [processRefV50, hskip]
    · cases hfind : find_target_law_v50 s.laws ref.url.get ref.number.get with
      | none => simp [processRefV50, hskip, hfind]
      | some tgt =>
        simp only [processRefV50, hskip, Bool.false_eq_true, if_false, hfind, hrel]
        exact linkArtBlock_other_kind srcArt sdo s.lawArticles s.articleReferences
          r tgt.id ref.articleNumber.get h1 h2
  · intro arts tid r d h1 h2
    have ha : (r == "revokes") = false := by simp [h2]
    have hb : (r == "amends") = false := by simp [h1]
    simp [update_target_article_status_v50, statusFor, ha, hb]

/-- C5 witness: the spec's example scenario — revoking article 5 of
    41/2023 with source date 2024-01-01 marks it REVOKED with validity
    end 2023-12-31. -/
theorem link_status_update_witness :
    (processRefV50 "A" "S" (some "2024-01-01")
        ⟨[⟨"T", "t", "41/2023", some "2023-06-02"⟩],
         [⟨"a5", "T", 5, "ACTIVE", none⟩], [], []⟩
        ⟨DictField.val "revokes", DictField.val "41/2023", DictField.val "5",
         DictField.null⟩).1.lawArticles =
      [⟨"a5", "T", 5, "ACTIVE", none⟩].map (fun a =>
        if a.id == "a5" then
          { a with statusId := if "revokes" == "revokes" then "REVOKED" else "SUPERSEDED",
                   validTo := some "2023-12-31" }
        else a) :=
  link_status_update.1 "A" "S" "2024-01-01"
    ⟨[⟨"T", "t", "41/2023", some "2023-06-02"⟩],
     [⟨"a5", "T", 5, "ACTIVE", none⟩], [], []⟩
    ⟨DictField.val "revokes", DictField.val "41/2023", DictField.val "5", DictField.null⟩
    "revokes" ⟨"T", "t", "41/2023", some "2023-06-02"⟩ "a5" "2023-12-31"
    rfl (Or.inr rfl) rfl rfl rfl (by decide) rfl (by decide)

/-- C9 (counterexample): a reference whose relationship kind is the
    unrecognized value "modifies" is emitted upper-cased as `MODIFIES`,
    not treated as `cites` — no `CITES` record is created. -/
theorem link_kind_counterexample :
    (processRefV50 "A" "S" none
        ⟨[⟨"T", "t-slug", "41/2023", some "2024-01-01"⟩], [], [], []⟩
        ⟨DictField.val "modifies", DictField.val "41/2023", DictField.absent,
         DictField.absent⟩).1.lawRelationships =
      [LawRel.mk "S" "T" "MODIFIES"] ∧
    LawRel.mk "S" "T" "CITES" ∉
      (processRefV50 "A" "S" none
        ⟨[⟨"T", "t-slug", "41/2023", some "2024-01-01"⟩], [], [], []⟩
        ⟨DictField.val "modifies", DictField.val "41/2023", DictField.absent,
         DictField.absent⟩).1.lawRelationships := by
  decide

/-- C9 (amended): the `cites` default applies only when the relationship
    key is absent from the reference; a present value — recognized or not
    — is emitted upper-cased as-is. -/
theorem link_kind_handling :
    (∀ srcArt srcLaw sdo s ref tgt,
      ref.relationship = DictField.absent →
      find_target_law_v50 s.laws ref.url.get ref.number.get = some tgt →
      LawRel.mk srcLaw tgt.id "CITES" ∉ s.lawRelationships →
      (processRefV50 srcArt srcLaw sdo s ref).1.lawRelationships =
        s.lawRelationships ++ [LawRel.mk srcLaw tgt.id "CITES"]) ∧
    (∀ srcArt srcLaw sdo s ref r tgt,
      ref.relationship = DictField.val r →
      find_target_law_v50 s.laws ref.url.get ref.number.get = some tgt →
      LawRel.mk srcLaw tgt.id (upperStr r) ∉ s.lawRelationships →
      (processRefV50 srcArt srcLaw sdo s ref).1.lawRelationships =
        s.lawRelationships ++ [LawRel.mk srcLaw tgt.id (upperStr r)]) := by
  constructor
  · intro srcArt srcLaw sdo s ref tgt habs hfind hnew
    have hskip := find_some_not_skip hfind
    have hrel : relValue ref = some "cites" := by
      simp [relValue, habs, DictField.getWithDefault]
    have hup : upperStr "cites" = "CITES" := rfl
    simp [processRefV50, hskip, hfind, hrel, linkLawBlock, hup, hnew]
  · intro srcArt srcLaw sdo s ref r tgt hval hfind hnew
    have hskip := find_some_not_skip hfind
    have hrel : relValue ref = some r := by
      simp [relValue, hval, DictField.getWithDefault]
    simp [processRefV50, hskip, hfind, hrel, linkLawBlock, hnew]

/-- C9 witness: an absent relationship key defaults to `CITES`; a present
    `modifies` value is emitted as `MODIFIES`. -/
theorem link_kind_handling_witness :
    (processRefV50 "A" "S" none
        ⟨[⟨"T", "t-slug", "41/2023", none⟩], [], [], []⟩
        ⟨DictField.absent, DictField.val "41/2023", DictField.absent,
         DictField.absent⟩).1.lawRelationships =
      [] ++ [LawRel.mk "S" "T" "CITES"] ∧
    (processRefV50 "A" "S" none
        ⟨[⟨"T", "t-slug", "41/2023", none⟩], [], [], []⟩
        ⟨DictField.val "modifies", DictField.val "41/2023", DictField.absent,
         DictField.absent⟩).1.lawRelationships =
      [] ++ [LawRel.mk "S" "T" (upperStr "modifies")] :=
  ⟨link_kind_handling.1 "A" "S" none
     ⟨[⟨"T", "t-slug", "41/2023", none⟩], [], [], []⟩
     ⟨DictField.absent, DictField.val "41/2023", DictField.absent, DictField.absent⟩
     ⟨"T", "t-slug", "41/2023", none⟩ rfl rfl (by decide),
   link_kind_handling.2 "A" "S" none
     ⟨[⟨"T", "t-slug", "41/2023", none⟩], [], [], []⟩
     ⟨DictField.val "modifies", DictField.val "41/2023", DictField.absent, DictField.absent⟩
     "modifies" ⟨"T", "t-slug", "41/2023", none⟩ rfl rfl (by decide)⟩

/-- C10: a store exception inside `_find_target_law_v50` is caught and
    becomes `none` (whichever of the three queries raises), making a
    store failure indistinguishable from an unresolved reference; the
    fallible model refines the pure one when the store answers; and at
    the call site a `none` resolution merely logs a debug entry and skips
    the reference with zero counters and an unchanged store. -/
theorem find_target_store_failure :
    (∀ (slugQ numQ likeQ : String → QueryOutcome) (u : String)
       (number : Option String) (slug : String),
       slugFromUrl u = some slug → slugQ slug = QueryOutcome.err →
       find_target_law_v50_q slugQ numQ likeQ (some u) number = none) ∧
    (∀ (slugQ numQ likeQ : String → QueryOutcome) (n : String),
       n ≠ "" → numQ n = QueryOutcome.err →
       find_target_law_v50_q slugQ numQ likeQ none (some n) = none) ∧
    (∀ (slugQ numQ likeQ : String → QueryOutcome) (n : String),
       n ≠ "" → numQ n = QueryOutcome.rows [] → likeQ n = QueryOutcome.err →
       find_target_law_v50_q slugQ numQ likeQ none (some n) = none) ∧
    (∀ laws url number,
       find_target_law_v50 laws url number =
         find_target_law_v50_q
           (fun slug => QueryOutcome.rows (laws.filter (fun l => l.slug == slug)))
           (fun n => QueryOutcome.rows (laws.filter (fun l => l.officialNumber == n)))
           (fun n => QueryOutcome.rows (laws.filter (fun l =>
              subMatch (lowerStr n).toList (lowerStr l.officialNumber).toList)))
           url number) ∧
    (∀ srcArt srcLaw sdo s ref,
       find_target_law_v50 s.laws ref.url.get ref.number.get = none →
       skipRef ref = false →
       processRefV50 srcArt srcLaw sdo s ref = (s, [LogEntry.targetNotFound], 0, 0) ∧
       LogEntry.targetNotFound.level = LogLevel.debug) := by
  have hurl : ∀ (laws : List Law) (url : Option String),
      urlLookupQ (fun slug => QueryOutcome.rows (laws.filter (fun l => l.slug == slug)))
        url = Option.map some (urlLookup laws url) := by
    intro laws url
    unfold urlLookupQ urlLookup
    by_cases ht : truthy url
    · simp only [ht, if_true]
      cases hs : slugFromUrl (url.getD "") with
      | none => simp
      | some slug =>
        cases hl : laws.filter (fun l => l.slug == slug) with
        | nil => simp [hl]
        | cons a t => simp [hl]
    · simp [ht]
  have hnum : ∀ (laws : List Law) (number : Option String),
      numberLookupQ
        (fun n => QueryOutcome.rows (laws.filter (fun l => l.officialNumber == n)))
        (fun n => QueryOutcome.rows (laws.filter (fun l =>
           subMatch (lowerStr n).toList (lowerStr l.officialNumber).toList)))
        number = numberLookup laws number := by
    intro laws number
    unfold numberLookupQ numberLookup
    by_cases ht : truthy number
    · simp only [ht, if_true]
      cases he : laws.filter (fun l => l.officialNumber == number.getD "") with
      | nil =>
        cases hp : laws.filter (fun l =>
            subMatch (lowerStr (number.getD "")).toList
              (lowerStr l.officialNumber).toList) with
        | nil => simp [he, hp]
        | cons a t => simp [he, hp]
      | cons a t => simp [he]
    · simp [ht]
  refine ⟨?_, ?_, ?_, ?_, ?_⟩
  · intro slugQ numQ likeQ u number slug hs herr
    have hne : u ≠ "" := slug_needs_nonempty hs
    have ht : truthy (some u) = true := by simp [truthy, hne]
    simp [find_target_law_v50_q, urlLookupQ, ht, hs, herr]
  · intro slugQ numQ likeQ n hn herr
    simp [find_target_law_v50_q, urlLookupQ, numberLookupQ, truthy, hn, herr]
  · intro slugQ numQ likeQ n hn hrows herr
    simp [find_target_law_v50_q, urlLookupQ, numberLookupQ, truthy, hn, hrows, herr]
  · intro laws url number
    unfold find_target_law_v50 find_target_law_v50_q
    rw [hurl laws url, hnum laws number]
    cases hu : urlLookup laws url with
    | some l => simp
    | none => simp
  · intro srcArt srcLaw sdo s ref hfind hskip
    exact ⟨by simp [processRefV50, hskip, hfind], rfl⟩

/-- C10 witness: a store that raises on every query resolves nothing,
    and the unresolved reference is skipped with only a debug entry. -/
theorem find_target_store_failure_witness :
    find_target_law_v50_q (fun _ => QueryOutcome.err) (fun _ => QueryOutcome.err)
      (fun _ => QueryOutcome.err) (some "https://x.pt/dr/detalhe/lei-42")
      (some "42/2020") = none ∧
    processRefV50 "A" "S" none ⟨[], [], [], []⟩
      ⟨DictField.val "cites", DictField.val "42/2020", DictField.absent,
       DictField.absent⟩ =
      (⟨[], [], [], []⟩, [LogEntry.targetNotFound], 0, 0) :=
  ⟨find_target_store_failure.1 (fun _ => QueryOutcome.err) (fun _ => QueryOutcome.err)
     (fun _ => QueryOutcome.err) "https://x.pt/dr/detalhe/lei-42" (some "42/2020")
     "lei-42" rfl rfl,
   (find_target_store_failure.2.2.2.2 "A" "S" none ⟨[], [], [], []⟩
     ⟨DictField.val "cites", DictField.val "42/2020", DictField.absent, DictField.absent⟩
     rfl rfl).1⟩

/-! ## C6: idempotency of the linker -/

/-- C6 (counterexample): idempotency of a second run fails on a store
    that violates the data model's ordinal uniqueness.  With two ACTIVE
    articles sharing (law, ordinal 5), a first run revokes the first one,
    so the second run resolves ordinal 5 to the *other* article and
    reports two new article links instead of zero. -/
theorem link_idempotent_counterexample :
    (process_and_link_references "A" "S" (some "2024-01-01")
      (process_and_link_references "A" "S" (some "2024-01-01")
        ⟨[⟨"T", "t", "41/2023", some "2023-06-02"⟩],
         [⟨"artA", "T", 5, "ACTIVE", none⟩, ⟨"artB", "T", 5, "ACTIVE", none⟩], [], []⟩
        [⟨DictField.val "cites", DictField.val "41/2023", DictField.val "5",
          DictField.absent⟩,
         ⟨DictField.val "revokes", DictField.val "41/2023", DictField.val "5",
          DictField.absent⟩]).1
      [⟨DictField.val "cites", DictField.val "41/2023", DictField.val "5",
        DictField.absent⟩,
       ⟨DictField.val "revokes", DictField.val "41/2023", DictField.val "5",
        DictField.absent⟩]).2.2.2 = 2 := by
  decide

/-- No row of `l` carries the key (law, ord). -/
def noKeyClash (law : String) (ord : Nat) (l : List Article) : Bool :=
  l.all fun b => !(decide (law = b.lawId) && decide (ord = b.articleOrder))

/-- The articles table respects the data model: (law, ordinal) identifies
    at most one row. -/
def uniqueArtKeys : List Article → Bool
  | [] => true
  | a :: rest => noKeyClash a.lawId a.articleOrder rest && uniqueArtKeys rest

/-- How one article row may evolve during linking: id and key fields are
    fixed, and a row that is ACTIVE afterwards was never touched. -/
def ArticleEvol (a b : Article) : Prop :=
  b.id = a.id ∧ b.lawId = a.lawId ∧ b.articleOrder = a.articleOrder ∧
  (b.statusId = "ACTIVE" → b = a)

/-- Pointwise evolution of the articles table. -/
inductive ListEvol : List Article → List Article → Prop where
  | nil : ListEvol [] []
  | cons {a b : Article} {as bs : List Article} :
      ArticleEvol a b → ListEvol as bs → ListEvol (a :: as) (b :: bs)

/-- Evolution is reflexive. -/
theorem evol_refl : ∀ l : List Article, ListEvol l l
  | [] => ListEvol.nil
  | _ :: t => ListEvol.cons ⟨rfl, rfl, rfl, fun _ => rfl⟩ (evol_refl t)

/-- One row's evolution composes. -/
theorem articleEvol_trans {a b c : Article} (h1 : ArticleEvol a b)
    (h2 : ArticleEvol b c) : ArticleEvol a c := by
  obtain ⟨i1, l1, o1, s1⟩ := h1
  obtain ⟨i2, l2, o2, s2⟩ := h2
  refine ⟨i2.trans i1, l2.trans l1, o2.trans o1, ?_⟩
  intro hc
  have hcb : c = b := s2 hc
  have hb : b.statusId = "ACTIVE" := by rw [← hcb]; exact hc
  exact hcb.trans (s1 hb)

/-- Table evolution composes. -/
theorem evol_trans : ∀ {xs ys zs : List Article},
    ListEvol xs ys → ListEvol ys zs → ListEvol xs zs := by
  intro xs ys zs h1 h2
  induction h1 generalizing zs with
  | nil => cases h2; exact ListEvol.nil
  | cons hab htail ih =>
    cases h2 with
    | cons hbc htail2 => exact ListEvol.cons (articleEvol_trans hab hbc) (ih htail2)

/-- A pointwise map whose steps are evolutions is an evolution. -/
theorem evol_map_self (f : Article → Article) (h : ∀ a, ArticleEvol a (f a)) :
    ∀ l : List Article, ListEvol l (l.map f)
  | [] => ListEvol.nil
  | _ :: t => ListEvol.cons (h _) (evol_map_self f h t)

/-- The status written by an update is never ACTIVE. -/
theorem statusFor_ne_active {r st : String} (h : statusFor r = some st) :
    st ≠ "ACTIVE" := by
  unfold statusFor at h
  by_cases h1 : r == "revokes"
  · rw [if_pos h1] at h
    cases h
    decide
  · rw [if_neg h1] at h
    by_cases h2 : r == "amends"
    · rw [if_pos h2] at h
      cases h
      decide
    · rw [if_neg h2] at h
      exact absurd h (by simp)

/-- A status update is an evolution of the articles table. -/
theorem update_evol (arts : List Article) (tid r d : String) :
    ListEvol arts (update_target_article_status_v50 arts tid r d).1 := by
  unfold update_target_article_status_v50
  cases hst : statusFor r with
  | none => exact evol_refl arts
  | some st =>
    cases hd : dayBeforeIso d with
    | none => exact evol_refl arts
    | some vt =>
      apply evol_map_self
      intro a
      by_cases hid : a.id == tid
      · simp only [hid, if_true]
        refine ⟨rfl, rfl, rfl, ?_⟩
        intro hact
        exact absurd hact (statusFor_ne_active hst)
      · simp only [hid, Bool.false_eq_true, if_false]
        exact ⟨rfl, rfl, rfl, fun _ => rfl⟩

/-- The article block evolves the articles table pointwise. -/
theorem linkArtBlock_arts_evol (A : String) (sdo : Option String)
    (arts : List Article) (arefs : List ArtRef) (rel : Option String)
    (tgtId : String) (an : Option String) :
    ListEvol arts (linkArtBlock A sdo arts arefs rel tgtId an).1 := by
  unfold linkArtBlock
  by_cases han : truthy an
  · simp only [han, if_true]
    cases hfa : find_target_article_v50 arts tgtId (an.getD "") with
    | none => exact evol_refl arts
    | some tid =>
      cases rel with
      | none => exact evol_refl arts
      | some r =>
        by_cases hmem : ArtRef.mk A tid (upperStr r) ∈ arefs
        · simp only [hmem, if_true]
          exact evol_refl arts
        · simp only [hmem, if_false]
          by_cases hcond : ((r == "amends" || r == "revokes") && truthy sdo) = true
          · simp only [hcond, if_true]
            exact update_evol arts tid r (sdo.getD "")
          · simp only [hcond, Bool.false_eq_true, if_false]
            exact evol_refl arts
  · simp only [han, Bool.false_eq_true, if_false]
    exact evol_refl arts

/-- The article block only appends to the references table. -/
theorem linkArtBlock_arefs_mono (A : String) (sdo : Option String)
    (arts : List Article) (arefs : List ArtRef) (rel : Option String)
    (tgtId : String) (an : Option String) :
    ∀ x ∈ arefs, x ∈ (linkArtBlock A sdo arts arefs rel tgtId an).2.1 := by
  intro x hx
  unfold linkArtBlock
  by_cases han : truthy an
  · simp only [han, if_true]
    cases hfa : find_target_article_v50 arts tgtId (an.getD "") with
    | none => exact hx
    | some tid =>
      cases rel with
      | none => exact hx
      | some r =>
        by_cases hmem : ArtRef.mk A tid (upperStr r) ∈ arefs
        · simp only [hmem, if_true]; exact hx
        · simp only [hmem, if_false]
          by_cases hcond : ((r == "amends" || r == "revokes") && truthy sdo) = true
          · simp only [hcond, if_true]
            exact List.mem_append_left _ hx
          · simp only [hcond, Bool.false_eq_true, if_false]
            exact List.mem_append_left _ hx
  · simp only [han, Bool.false_eq_true, if_false]
    exact hx

/-- The law block only appends to the relationships table. -/
theorem linkLawBlock_mono (S : String) (sdo : Option String) (rels : List LawRel)
    (rel : Option String) (tgt : Law) :
    ∀ x ∈ rels, x ∈ (linkLawBlock S sdo rels rel tgt).1 := by
  intro x hx
  unfold linkLawBlock
  cases rel with
  | none => exact hx
  | some r =>
    by_cases hmem : LawRel.mk S tgt.id (upperStr r) ∈ rels
    · simp only [hmem, if_true]; exact hx
    · simp only [hmem, if_false]
      exact List.mem_append_left _ hx

/-- One linking step: laws unchanged, articles evolve, both link tables
    only grow. -/
theorem processRef_evol (A S : String) (sdo : Option String) (s : Store)
    (ref : CrossRef) :
    (processRefV50 A S sdo s ref).1.laws = s.laws ∧
    ListEvol s.lawArticles (processRefV50 A S sdo s ref).1.lawArticles ∧
    (∀ x ∈ s.lawRelationships, x ∈ (processRefV50 A S sdo s ref).1.lawRelationships) ∧
    (∀ x ∈ s.articleReferences, x ∈ (processRefV50 A S sdo s ref).1.articleReferences) := by
  by_cases hskip : skipRef ref
  · simp only [processRefV50, hskip, if_true]
    exact ⟨trivial, evol_refl _, fun x hx => hx, fun x hx => hx⟩
  · simp only [processRefV50, hskip, Bool.false_eq_true, if_false]
    cases hfind : find_target_law_v50 s.laws ref.url.get ref.number.get with
    | none => exact ⟨rfl, evol_refl _, fun x hx => hx, fun x hx => hx⟩
    | some tgt =>
      refine ⟨rfl, ?_, ?_, ?_⟩
      · exact linkArtBlock_arts_evol A sdo s.lawArticles s.articleReferences
          (relValue ref) tgt.id ref.articleNumber.get
      · exact linkLawBlock_mono S sdo s.lawRelationships (relValue ref) tgt
      · exact linkArtBlock_arefs_mono A sdo s.lawArticles s.articleReferences
          (relValue ref) tgt.id ref.articleNumber.get

/-- The store thread of `_process_and_link_references`, step by step. -/
def linkStoresV50 (A S : String) (sdo : Option String) : Store → List CrossRef → Store
  | s, [] => s
  | s, ref :: rest => linkStoresV50 A S sdo (processRefV50 A S sdo s ref).1 rest

/-- The store produced by the fold is the store thread. -/
theorem process_fst (A S : String) (sdo : Option String) :
    ∀ (refs : List CrossRef) (acc : Store × List LogEntry × Nat × Nat),
    (refs.foldl (fun acc ref =>
      let step := processRefV50 A S sdo acc.1 ref
      (step.1, acc.2.1 ++ step.2.1, acc.2.2.1 + step.2.2.1, acc.2.2.2 + step.2.2.2))
      acc).1 = linkStoresV50 A S sdo acc.1 refs
  | [], _ => rfl
  | _ref :: rest, _acc => process_fst A S sdo rest _

/-- Store evolution over a whole run. -/
theorem linkStores_evol (A S : String) (sdo : Option String) :
    ∀ (refs : List CrossRef) (s : Store),
    (linkStoresV50 A S sdo s refs).laws = s.laws ∧
    ListEvol s.lawArticles (linkStoresV50 A S sdo s refs).lawArticles ∧
    (∀ x ∈ s.lawRelationships, x ∈ (linkStoresV50 A S sdo s refs).lawRelationships) ∧
    (∀ x ∈ s.articleReferences, x ∈ (linkStoresV50 A S sdo s refs).articleReferences) := by
  intro refs
  induction refs with
  | nil => exact fun s => ⟨rfl, evol_refl _, fun x hx => hx, fun x hx => hx⟩
  | cons ref rest ih =>
    intro s
    obtain ⟨hl1, he1, hr1, ha1⟩ := processRef_evol A S sdo s ref
    obtain ⟨hl2, he2, hr2, ha2⟩ := ih (processRefV50 A S sdo s ref).1
    exact ⟨hl2.trans hl1, evol_trans he1 he2,
      fun x hx => hr2 x (hr1 x hx), fun x hx => ha2 x (ha1 x hx)⟩

/-- Key-clash freedom transfers along evolution (keys are fixed). -/
theorem noKeyClash_evol {as bs : List Article} (h : ListEvol as bs)
    (law : String) (ord : Nat) (hc : noKeyClash law ord as = true) :
    noKeyClash law ord bs = true := by
  induction h with
  | nil => rfl
  | cons hab htail ih =>
    obtain ⟨_, hlaw, hord, _⟩ := hab
    simp only [noKeyClash, List.all_cons, Bool.and_eq_true] at hc ⊢
    exact ⟨by rw [hlaw, hord]; exact hc.1, ih hc.2⟩

/-- Ordinal uniqueness transfers along evolution. -/
theorem uniqueArtKeys_evol {as bs : List Article} (h : ListEvol as bs)
    (hu : uniqueArtKeys as = true) : uniqueArtKeys bs = true := by
  induction h with
  | nil => rfl
  | cons hab htail ih =>
    obtain ⟨_, hlaw, hord, _⟩ := hab
    simp only [uniqueArtKeys, Bool.and_eq_true] at hu ⊢
    exact ⟨by rw [hlaw, hord]; exact noKeyClash_evol htail _ _ hu.1, ih hu.2⟩

/-- A row of the evolved table has a key-equal ancestor. -/
theorem evol_mem_keys {as bs : List Article} (h : ListEvol as bs) :
    ∀ b ∈ bs, ∃ a ∈ as, a.lawId = b.lawId ∧ a.articleOrder = b.articleOrder := by
  induction h with
  | nil => intro b hb; cases hb
  | cons hab htail ih =>
    intro b hb
    cases hb with
    | head =>
      obtain ⟨_, hlaw, hord, _⟩ := hab
      exact ⟨_, List.mem_cons_self _ _, hlaw.symm, hord.symm⟩
    | tail _ hb2 =>
      obtain ⟨a0, ha0, hk⟩ := ih b hb2
      exact ⟨a0, List.mem_cons_of_mem _ ha0, hk⟩

/-- Stability of ACTIVE-article resolution: under ordinal uniqueness, if
    the first ACTIVE row with a given key of the *evolved* table is `b0`,
    then it already was the first such row before the evolution (statuses
    only ever leave ACTIVE, and the key picks at most one row). -/
theorem active_head_stable (law : String) (n : Nat) :
    ∀ {xs ys : List Article}, ListEvol xs ys → uniqueArtKeys xs = true →
    ∀ {b0 : Article},
      (ys.filter (fun a => decide (a.lawId = law) && decide (a.articleOrder = n) &&
        decide (a.statusId = "ACTIVE"))).head? = some b0 →
      (xs.filter (fun a => decide (a.lawId = law) && decide (a.articleOrder = n) &&
        decide (a.statusId = "ACTIVE"))).head? = some b0 := by
  intro xs ys h
  induction h with
  | nil => intro _ b0 hb; simp at hb
  | @cons a b l1 l2 hab htail ih =>
    intro huniq b0 hb
    simp only [uniqueArtKeys, Bool.and_eq_true] at huniq
    obtain ⟨hclash, huniq2⟩ := huniq
    obtain ⟨hid, hlaw, hord, hact⟩ := hab
    by_cases hpb : (decide (b.lawId = law) && decide (b.articleOrder = n) &&
        decide (b.statusId = "ACTIVE")) = true
    · simp only [List.filter_cons, hpb, if_true, List.head?_cons,
        Option.some.injEq] at hb
      have hbact : b.statusId = "ACTIVE" := by
        simp only [Bool.and_eq_true, decide_eq_true_eq] at hpb
        exact hpb.2
      have hba : b = a := hact hbact
      have hpa : (decide (a.lawId = law) && decide (a.articleOrder = n) &&
          decide (a.statusId = "ACTIVE")) = true := by rw [← hba]; exact hpb
      simp only [List.filter_cons, hpa, if_true, List.head?_cons, Option.some.injEq]
      rw [← hba, hb]
    · have hpb2 : (decide (b.lawId = law) && decide (b.articleOrder = n) &&
          decide (b.statusId = "ACTIVE")) = false := by
        exact Bool.eq_false_iff.mpr hpb
      simp only [List.filter_cons, hpb2, Bool.false_eq_true, if_false] at hb
      by_cases hpa : (decide (a.lawId = law) && decide (a.articleOrder = n) &&
          decide (a.statusId = "ACTIVE")) = true
      · exfalso
        have hb0 : b0 ∈ List.filter (fun a => decide (a.lawId = law) &&
            decide (a.articleOrder = n) && decide (a.statusId = "ACTIVE")) l2 := by
          cases hfb : List.filter (fun a => decide (a.lawId = law) &&
              decide (a.articleOrder = n) && decide (a.statusId = "ACTIVE")) l2 with
          | nil => rw [hfb] at hb; simp at hb
          | cons c t =>
            rw [hfb] at hb
            simp only [List.head?_cons, Option.some.injEq] at hb
            rw [← hb]
            exact List.mem_cons_self _ _
        obtain ⟨hb0mem, hb0p⟩ := List.mem_filter.mp hb0
        obtain ⟨a0, ha0, hk1, hk2⟩ := evol_mem_keys htail b0 hb0mem
        simp only [Bool.and_eq_true, decide_eq_true_eq] at hpa hb0p
        have hcontra : ¬ a.lawId = a0.lawId ∨ ¬ a.articleOrder = a0.articleOrder := by
          have := (List.all_eq_true.mp hclash) a0 ha0
          simpa using this
        rcases hcontra with hc | hc
        · exact hc (by rw [hpa.1.1, hk1, hb0p.1.1])
        · exact hc (by rw [hpa.1.2, hk2, hb0p.1.2])
      · have hpa2 : (decide (a.lawId = law) && decide (a.articleOrder = n) &&
            decide (a.statusId = "ACTIVE")) = false := by
          exact Bool.eq_false_iff.mpr hpa
        simp only [List.filter_cons, hpa2, Bool.false_eq_true, if_false]
        exact ih huniq2 hb

/-- Stability of `_find_target_article_v50` under store evolution. -/
theorem find_target_article_stable {xs ys : List Article} {law an tid : String}
    (huniq : uniqueArtKeys xs = true) (h : ListEvol xs ys)
    (hfind : find_target_article_v50 ys law an = some tid) :
    find_target_article_v50 xs law an = some tid := by
  cases hfi : firstInteger an with
  | none =>
    rw [find_target_article_v50, hfi] at hfind
    exact absurd hfind (by simp)
  | some n =>
    simp only [find_target_article_v50, hfi] at hfind ⊢
    cases hh : (ys.filter (fun a => decide (a.lawId = law) &&
        decide (a.articleOrder = n) && decide (a.statusId = "ACTIVE"))).head? with
    | none => rw [hh] at hfind; exact absurd hfind (by simp)
    | some b0 =>
      rw [hh] at hfind
      rw [active_head_stable law n h huniq hh]
      exact hfind

/-- After processing a reference that resolves to `tgt` with kind `r`,
    the document link record is in the store (inserted or already there). -/
theorem processRef_lawrel_after (A S : String) (sdo : Option String) (s : Store)
    (ref : CrossRef) (tgt : Law) (r : String)
    (hfind : find_target_law_v50 s.laws ref.url.get ref.number.get = some tgt)
    (hrel : relValue ref = some r) :
    LawRel.mk S tgt.id (upperStr r) ∈
      (processRefV50 A S sdo s ref).1.lawRelationships := by
  have hskip := find_some_not_skip hfind
  by_cases hmem : LawRel.mk S tgt.id (upperStr r) ∈ s.lawRelationships
  · simp [processRefV50, hskip, hfind, hrel, linkLawBlock, hmem]
  · simp [processRefV50, hskip, hfind, hrel, linkLawBlock, hmem]

/-- After processing a reference that also resolves a target article, the
    article link record is in the store (inserted or already there). -/
theorem processRef_artref_after (A S : String) (sdo : Option String) (s : Store)
    (ref : CrossRef) (tgt : Law) (r tid : String)
    (hfind : find_target_law_v50 s.laws ref.url.get ref.number.get = some tgt)
    (hrel : relValue ref = some r)
    (han : truthy ref.articleNumber.get = true)
    (hart : find_target_article_v50 s.lawArticles tgt.id
      (ref.articleNumber.get.getD "") = some tid) :
    ArtRef.mk A tid (upperStr r) ∈
      (processRefV50 A S sdo s ref).1.articleReferences := by
  have hskip := find_some_not_skip hfind
  by_cases hmem : ArtRef.mk A tid (upperStr r) ∈ s.articleReferences
  · simp [processRefV50, hskip, hfind, hrel, linkArtBlock, han, hart, hmem]
  · by_cases hcond : ((r == "amends" || r == "revokes") && truthy sdo) = true
    · simp [processRefV50, hskip, hfind, hrel, linkArtBlock, han, hart, hmem, hcond]
    · simp [processRefV50, hskip, hfind, hrel, linkArtBlock, han, hart, hmem, hcond]

/-- A reference is settled in a store when reprocessing it cannot change
    the store: it is internal, unresolvable, or every record it would
    insert is already present. -/
def RefSettled (A S : String) (s : Store) (ref : CrossRef) : Prop :=
  skipRef ref = true ∨
  find_target_law_v50 s.laws ref.url.get ref.number.get = none ∨
  ∃ tgt, find_target_law_v50 s.laws ref.url.get ref.number.get = some tgt ∧
    ∀ r, relValue ref = some r →
      LawRel.mk S tgt.id (upperStr r) ∈ s.lawRelationships ∧
      ∀ tid, truthy ref.articleNumber.get = true →
        find_target_article_v50 s.lawArticles tgt.id
          (ref.articleNumber.get.getD "") = some tid →
        ArtRef.mk A tid (upperStr r) ∈ s.articleReferences

/-- Processing a settled reference is a store no-op with zero counters
    (duplicate inserts are caught and counted as nothing). -/
theorem refSettled_noop (A S : String) (sdo : Option String) (s : Store)
    (ref : CrossRef) (h : RefSettled A S s ref) :
    (processRefV50 A S sdo s ref).1 = s ∧
    (processRefV50 A S sdo s ref).2.2.1 = 0 ∧
    (processRefV50 A S sdo s ref).2.2.2 = 0 := by
  rcases h with hskip | hfind | ⟨tgt, hfind, hrest⟩
  · simp [processRefV50, hskip]
  · by_cases hskip : skipRef ref
    · simp [processRefV50, hskip]
    · simp [processRefV50, hskip, hfind]
  · have hskip := find_some_not_skip hfind
    have hA : (linkLawBlock S sdo s.lawRelationships (relValue ref) tgt).1 =
        s.lawRelationships ∧
        (linkLawBlock S sdo s.lawRelationships (relValue ref) tgt).2.2 = 0 := by
      cases hrel : relValue ref with
      | none => simp [linkLawBlock]
      | some r =>
        have hmem := (hrest r hrel).1
        simp [linkLawBlock, hmem]
    have hB : (linkArtBlock A sdo s.lawArticles s.articleReferences (relValue ref)
          tgt.id ref.articleNumber.get).1 = s.lawArticles ∧
        (linkArtBlock A sdo s.lawArticles s.articleReferences (relValue ref)
          tgt.id ref.articleNumber.get).2.1 = s.articleReferences ∧
        (linkArtBlock A sdo s.lawArticles s.articleReferences (relValue ref)
          tgt.id ref.articleNumber.get).2.2.2 = 0 := by
      unfold linkArtBlock
      by_cases han : truthy ref.articleNumber.get
      · simp only [han, if_true]
        cases hfa : find_target_article_v50 s.lawArticles tgt.id
            (ref.articleNumber.get.getD "") with
        | none => exact ⟨rfl, rfl, rfl⟩
        | some tid =>
          cases hrel : relValue ref with
          | none => exact ⟨rfl, rfl, rfl⟩
          | some r =>
            have hmem := (hrest r hrel).2 tid han hfa
            simp [hmem]
      · simp [han]
    simp only [processRefV50, hskip, Bool.false_eq_true, if_false, hfind]
    refine ⟨?_, hA.2, hB.2.2⟩
    rw [hA.1, hB.1, hB.2.1]

/-- A run over settled references leaves the store and the counters of
    the accumulator unchanged. -/
theorem run2_fold (A S : String) (sdo : Option String) :
    ∀ (refs : List CrossRef) (acc : Store × List LogEntry × Nat × Nat),
    (∀ ref ∈ refs, RefSettled A S acc.1 ref) →
    (refs.foldl (fun acc ref =>
      let step := processRefV50 A S sdo acc.1 ref
      (step.1, acc.2.1 ++ step.2.1, acc.2.2.1 + step.2.2.1,
       acc.2.2.2 + step.2.2.2)) acc).1 = acc.1 ∧
    (refs.foldl (fun acc ref =>
      let step := processRefV50 A S sdo acc.1 ref
      (step.1, acc.2.1 ++ step.2.1, acc.2.2.1 + step.2.2.1,
       acc.2.2.2 + step.2.2.2)) acc).2.2.1 = acc.2.2.1 ∧
    (refs.foldl (fun acc ref =>
      let step := processRefV50 A S sdo acc.1 ref
      (step.1, acc.2.1 ++ step.2.1, acc.2.2.1 + step.2.2.1,
       acc.2.2.2 + step.2.2.2)) acc).2.2.2 = acc.2.2.2 := by
  intro refs
  induction refs with
  | nil => intro acc _; exact ⟨rfl, rfl, rfl⟩
  | cons ref rest ih =>
    intro acc h
    obtain ⟨h1, h2, h3⟩ :=
      refSettled_noop A S sdo acc.1 ref (h ref (List.mem_cons_self _ _))
    rw [List.foldl_cons]
    have hsettle2 : ∀ r ∈ rest, RefSettled A S
        ((processRefV50 A S sdo acc.1 ref).1, acc.2.1 ++
          (processRefV50 A S sdo acc.1 ref).2.1,
         acc.2.2.1 + (processRefV50 A S sdo acc.1 ref).2.2.1,
         acc.2.2.2 + (processRefV50 A S sdo acc.1 ref).2.2.2).1 r := by
      intro r hr
      show RefSettled A S (processRefV50 A S sdo acc.1 ref).1 r
      rw [h1]
      exact h r (List.mem_cons_of_mem _ hr)
    obtain ⟨g1, g2, g3⟩ := ih _ hsettle2
    refine ⟨g1.trans h1, ?_, ?_⟩
    · rw [g2]; show acc.2.2.1 + (processRefV50 A S sdo acc.1 ref).2.2.1 = acc.2.2.1
      rw [h2, Nat.add_zero]
    · rw [g3]; show acc.2.2.2 + (processRefV50 A S sdo acc.1 ref).2.2.2 = acc.2.2.2
      rw [h3, Nat.add_zero]

/-- After a full run from a store with unique ordinals, every processed
    reference is settled in the resulting store. -/
theorem run1_settles (A S : String) (sdo : Option String) :
    ∀ (refs : List CrossRef) (s : Store), uniqueArtKeys s.lawArticles = true →
    ∀ ref ∈ refs, RefSettled A S (linkStoresV50 A S sdo s refs) ref := by
  intro refs
  induction refs with
  | nil => intro s _ ref hr; cases hr
  | cons r0 rest ih =>
    intro s huniq ref hr
    have hevol1 := processRef_evol A S sdo s r0
    have huniq2 : uniqueArtKeys (processRefV50 A S sdo s r0).1.lawArticles = true :=
      uniqueArtKeys_evol hevol1.2.1 huniq
    have hfinal := linkStores_evol A S sdo (r0 :: rest) s
    cases hr with
    | tail _ hr2 =>
      exact ih (processRefV50 A S sdo s r0).1 huniq2 ref hr2
    | head =>
      by_cases hskip : skipRef r0
      · exact Or.inl hskip
      · cases hfind : find_target_law_v50 s.laws r0.url.get r0.number.get with
        | none =>
          refine Or.inr (Or.inl ?_)
          rw [hfinal.1]
          exact hfind
        | some tgt =>
          refine Or.inr (Or.inr ⟨tgt, ?_, ?_⟩)
          · rw [hfinal.1]
            exact hfind
          · intro r hrel
            constructor
            · have hmem1 := processRef_lawrel_after A S sdo s r0 tgt r hfind hrel
              have hmono :=
                (linkStores_evol A S sdo rest (processRefV50 A S sdo s r0).1).2.2.1
              exact hmono _ hmem1
            · intro tid han hart
              have harts : find_target_article_v50 s.lawArticles tgt.id
                  (r0.articleNumber.get.getD "") = some tid :=
                find_target_article_stable huniq hfinal.2.1 hart
              have hmem2 :=
                processRef_artref_after A S sdo s r0 tgt r tid hfind hrel han harts
              have hmono :=
                (linkStores_evol A S sdo rest (processRefV50 A S sdo s r0).1).2.2.2
              exact hmono _ hmem2

/-- C6 (amended): a duplicate document-link insert is caught — the table
    and the per-call counter are unchanged and the failure is logged at
    debug level — and, provided the store satisfies the data model's
    uniqueness of article ordinals, a second run of
    `_process_and_link_references` over the same references and resulting
    store state changes nothing and reports zero new links of either
    kind. -/
theorem link_idempotent :
    (∀ (S : String) (sdo : Option String) (rels : List LawRel) (r : String) (tgt : Law),
       LawRel.mk S tgt.id (upperStr r) ∈ rels →
       (linkLawBlock S sdo rels (some r) tgt).1 = rels ∧
       (linkLawBlock S sdo rels (some r) tgt).2.2 = 0 ∧
       LogEntry.lawRelFailed ∈ (linkLawBlock S sdo rels (some r) tgt).2.1 ∧
       LogEntry.lawRelFailed.level = LogLevel.debug) ∧
    (∀ (A S : String) (sdo : Option String) (s : Store) (refs : List CrossRef),
       uniqueArtKeys s.lawArticles = true →
       (process_and_link_references A S sdo
          (process_and_link_references A S sdo s refs).1 refs).1 =
         (process_and_link_references A S sdo s refs).1 ∧
       (process_and_link_references A S sdo
          (process_and_link_references A S sdo s refs).1 refs).2.2.1 = 0 ∧
       (process_and_link_references A S sdo
          (process_and_link_references A S sdo s refs).1 refs).2.2.2 = 0) := by
  constructor
  · intro S sdo rels r tgt hmem
    refine ⟨?_, ?_, ?_, rfl⟩ <;> simp [linkLawBlock, hmem]
  · intro A S sdo s refs huniq
    have hfst1 : (process_and_link_references A S sdo s refs).1 =
        linkStoresV50 A S sdo s refs :=
      process_fst A S sdo refs (s, [], 0, 0)
    have hsettled : ∀ ref ∈ refs,
        RefSettled A S (process_and_link_references A S sdo s refs).1 ref := by
      intro ref hr
      rw [hfst1]
      exact run1_settles A S sdo refs s huniq ref hr
    exact run2_fold A S sdo refs
      ((process_and_link_references A S sdo s refs).1, [], 0, 0) hsettled

/-- C6 witness: on a well-formed store the second run over the same two
    references is a no-op with zero counters, and a duplicate insert is a
    debug-logged store no-op. -/
theorem link_idempotent_witness :
    ((process_and_link_references "A" "S" (some "2024-01-01")
        (process_and_link_references "A" "S" (some "2024-01-01")
          ⟨[⟨"T", "t", "41/2023", some "2023-06-02"⟩],
           [⟨"a5", "T", 5, "ACTIVE", none⟩], [], []⟩
          [⟨DictField.val "cites", DictField.val "41/2023", DictField.val "5",
            DictField.absent⟩,
           ⟨DictField.val "revokes", DictField.val "41/2023", DictField.val "5",
            DictField.absent⟩]).1
        [⟨DictField.val "cites", DictField.val "41/2023", DictField.val "5",
          DictField.absent⟩,
         ⟨DictField.val "revokes", DictField.val "41/2023", DictField.val "5",
          DictField.absent⟩]).1 =
      (process_and_link_references "A" "S" (some "2024-01-01")
        ⟨[⟨"T", "t", "41/2023", some "2023-06-02"⟩],
         [⟨"a5", "T", 5, "ACTIVE", none⟩], [], []⟩
        [⟨DictField.val "cites", DictField.val "41/2023", DictField.val "5",
          DictField.absent⟩,
         ⟨DictField.val "revokes", DictField.val "41/2023", DictField.val "5",
          DictField.absent⟩]).1 ∧
     (process_and_link_references "A" "S" (some "2024-01-01")
        (process_and_link_references "A" "S" (some "2024-01-01")
          ⟨[⟨"T", "t", "41/2023", some "2023-06-02"⟩],
           [⟨"a5", "T", 5, "ACTIVE", none⟩], [], []⟩
          [⟨DictField.val "cites", DictField.val "41/2023", DictField.val "5",
            DictField.absent⟩,
           ⟨DictField.val "revokes", DictField.val "41/2023", DictField.val "5",
            DictField.absent⟩]).1
        [⟨DictField.val "cites", DictField.val "41/2023", DictField.val "5",
          DictField.absent⟩,
         ⟨DictField.val "revokes", DictField.val "41/2023", DictField.val "5",
          DictField.absent⟩]).2.2.1 = 0 ∧
     (process_and_link_references "A" "S" (some "2024-01-01")
        (process_and_link_references "A" "S" (some "2024-01-01")
          ⟨[⟨"T", "t", "41/2023", some "2023-06-02"⟩],
           [⟨"a5", "T", 5, "ACTIVE", none⟩], [], []⟩
          [⟨DictField.val "cites", DictField.val "41/2023", DictField.val "5",
            DictField.absent⟩,
           ⟨DictField.val "revokes", DictField.val "41/2023", DictField.val "5",
            DictField.absent⟩]).1
        [⟨DictField.val "cites", DictField.val "41/2023", DictField.val "5",
          DictField.absent⟩,
         ⟨DictField.val "revokes", DictField.val "41/2023", DictField.val "5",
          DictField.absent⟩]).2.2.2 = 0) ∧
    (linkLawBlock "S" (some "2024-01-01") [⟨"S", "T", "CITES"⟩] (some "cites")
       ⟨"T", "t", "41/2023", some "2023-06-02"⟩).1 = [⟨"S", "T", "CITES"⟩] :=
  ⟨link_idempotent.2 "A" "S" (some "2024-01-01")
     ⟨[⟨"T", "t", "41/2023", some "2023-06-02"⟩],
      [⟨"a5", "T", 5, "ACTIVE", none⟩], [], []⟩
     [⟨DictField.val "cites", DictField.val "41/2023", DictField.val "5",
       DictField.absent⟩,
      ⟨DictField.val "revokes", DictField.val "41/2023", DictField.val "5",
       DictField.absent⟩] (by decide),
   (link_idempotent.1 "S" (some "2024-01-01") [⟨"S", "T", "CITES"⟩] "cites"
     ⟨"T", "t", "41/2023", some "2023-06-02"⟩ (by decide)).1⟩
